import Mathlib

/-!
Verification of the Indonesian legal-document chunker
(repository sodapelangi/regulatorai, file chunker-service/chunker.py).

Strings are modelled as lists of characters.  Python regular expressions
used by the source are hand-compiled to deterministic matching functions
that follow the leftmost-match, greedy/lazy backtracking semantics of the
Python re module on the character classes actually used by the patterns
(whitespace, ASCII letters and digits, literal words).  Fallible scans
return Option values, mirroring re.search returning None.
-/

abbrev Str := List Char

/-- Characters accepted by the Python regex class for whitespace and by
str.strip, restricted to the code points the documents can contain
(ASCII whitespace, NEL, NBSP and the common Unicode space block). -/
def pyWs (c : Char) : Bool :=
  c = ' ' || c = '\t' || c = '\n' || c = '\x0d' || c = '\x0b' || c = '\x0c' ||
  c = '\x1c' || c = '\x1d' || c = '\x1e' || c = '\x1f' || c = '\x85' || c = '\xA0' ||
  c = ' ' || (' ' ≤ c && c ≤ ' ') || c = ' ' || c = ' ' ||
  c = ' ' || c = ' ' || c = '　'

def isAsciiDigit (c : Char) : Bool := '0' ≤ c && c ≤ '9'

def isLowerAZ (c : Char) : Bool := 'a' ≤ c && c ≤ 'z'

def isUpperAZ (c : Char) : Bool := 'A' ≤ c && c ≤ 'Z'

/-- Any ASCII letter: the class A-Z under re.IGNORECASE. -/
def isAlphaAZ (c : Char) : Bool := isUpperAZ c || isLowerAZ c

def asciiLower (c : Char) : Char :=
  if isUpperAZ c then Char.ofNat (c.toNat + 32) else c

/-- Case-insensitive character comparison (ASCII folding, as re.IGNORECASE
behaves on the ASCII literals appearing in the patterns). -/
def ciChar (a b : Char) : Bool := asciiLower a = asciiLower b

/-- Case-insensitive literal-prefix test. -/
def startsWithCI : Str → Str → Bool
  | [], _ => true
  | _ :: _, [] => false
  | p :: ps, c :: cs => ciChar p c && startsWithCI ps cs

/-- Case-sensitive literal-prefix test. -/
def startsWithCS : Str → Str → Bool
  | [], _ => true
  | _ :: _, [] => false
  | p :: ps, c :: cs => (p = c) && startsWithCS ps cs

/-- The roman-numeral class I, V, X of the section patterns (IGNORECASE). -/
def isRomanIVX (c : Char) : Bool :=
  ciChar c 'I' || ciChar c 'V' || ciChar c 'X'

/-- Length of the maximal whitespace run at the front. -/
def wsLen (cs : Str) : Nat := (cs.takeWhile pyWs).length

/-- Python str.strip(): drop whitespace from both ends. -/
def pyStrip (cs : Str) : Str :=
  ((cs.dropWhile pyWs).reverse.dropWhile pyWs).reverse

/-- Python str.strip(chars) for an explicit character set. -/
def pyStripChars (chs : List Char) (cs : Str) : Str :=
  ((cs.dropWhile (chs.contains ·)).reverse.dropWhile (chs.contains ·)).reverse

/-- Python str.split(sep) for a single separator character;
always yields at least one (possibly empty) part. -/
def splitOnChar (sep : Char) : Str → List Str
  | [] => [[]]
  | c :: cs =>
    if c = sep then [] :: splitOnChar sep cs
    else
      match splitOnChar sep cs with
      | [] => [[c]]
      | h :: t => (c :: h) :: t

/-- Python sep.join(parts). -/
def joinSep (sep : Str) : List Str → Str
  | [] => []
  | [p] => p
  | p :: ps => p ++ sep ++ joinSep sep ps

def joinNL (parts : List Str) : Str := joinSep ['\n'] parts

/-- Decimal rendering of a natural number, as Python str(int). -/
def natStr (n : Nat) : Str := Nat.toDigits 10 n

/-- The smallest x in the interval from lo to hi satisfying f, if any. -/
def firstNat (lo hi : Nat) (f : Nat → Bool) : Option Nat :=
  (List.range' lo (hi + 1 - lo)).find? f

/-- The first success of f on lo..hi scanned in ascending order. -/
def firstSome (lo hi : Nat) (f : Nat → Option α) : Option α :=
  (List.range' lo (hi + 1 - lo)).findSome? f

/-- The first success of f on lo..hi scanned in descending order
(the order a greedy quantifier backtracks in). -/
def descSome (lo hi : Nat) (f : Nat → Option α) : Option α :=
  (List.range' lo (hi + 1 - lo)).reverse.findSome? f

/-! ## Structure classifier (identify_structure_level) -/

/-- One heading rule: a literal word, one or more whitespace characters and
a nonempty run of a character class; group 1 is exactly that span.  With
requireEnd the pattern also demands only whitespace up to the line end. -/
def matchHeadRule (word : Str) (cls : Char → Bool) (requireEnd : Bool)
    (cs : Str) : Option Str :=
  if startsWithCI word cs then
    let r1 := cs.drop word.length
    let w := wsLen r1
    if 0 < w then
      let r2 := r1.drop w
      let k := (r2.takeWhile cls).length
      if 0 < k then
        if requireEnd && !(r2.drop k).all pyWs then none
        else some (cs.take (word.length + w + k))
      else none
    else none
  else none

/-- Pattern Pasal digits with nothing but whitespace after. -/
def matchPasalPlain (cs : Str) : Option Str :=
  if startsWithCI "Pasal".data cs then
    let r1 := cs.drop 5
    let w := wsLen r1
    if 0 < w then
      let r2 := r1.drop w
      let d := (r2.takeWhile isAsciiDigit).length
      if 0 < d then
        if (r2.drop d).all pyWs then some (cs.take (5 + w + d)) else none
      else none
    else none
  else none

/-- Pattern Pasal digits with one optional trailing letter (the letter
class is taken case-insensitively as the whole pattern is). -/
def matchPasalLetter (cs : Str) : Option Str :=
  if startsWithCI "Pasal".data cs then
    let r1 := cs.drop 5
    let w := wsLen r1
    if 0 < w then
      let r2 := r1.drop w
      let d := (r2.takeWhile isAsciiDigit).length
      if 0 < d then
        let r3 := r2.drop d
        match r3 with
        | c :: rest =>
          if isAlphaAZ c then
            if rest.all pyWs then some (cs.take (5 + w + d + 1)) else none
          else if r3.all pyWs then some (cs.take (5 + w + d)) else none
        | [] => some (cs.take (5 + w + d))
      else none
    else none
  else none

/-- The ordered level-2 rule table of the source (LAMPIRAN, BAB, BAGIAN). -/
def majorSectionRules : List (Str → Option Str) :=
  [matchHeadRule "LAMPIRAN".data isRomanIVX true,
   matchHeadRule "BAB".data isRomanIVX false,
   matchHeadRule "BAGIAN".data isAlphaAZ false]

/-- The ordered level-3 rule table of the source. -/
def pasalRules : List (Str → Option Str) :=
  [matchPasalPlain, matchPasalLetter]

/-- Evaluate an ordered rule table, first match wins. -/
def firstRule (rules : List (Str → Option Str)) (cs : Str) : Option Str :=
  rules.findSome? (fun r => r cs)

structure LineClass where
  level : Nat
  section_number : Option Str
  title : Option Str
  chunk_type : Option Str
deriving DecidableEq

/-- identify_structure_level: classify one line, returning its structural
level together with section number, title and chunk type. -/
def identify_structure_level (line : Str) : LineClass :=
  let l := pyStrip line
  if l = [] then ⟨0, none, none, none⟩
  else
    match firstRule majorSectionRules l with
    | some g => ⟨2, none, some g, some "major_section".data⟩
    | none =>
      match firstRule pasalRules l with
      | some g => ⟨3, some g, some g, some "pasal".data⟩
      | none => ⟨0, none, none, none⟩

/-! ## Section splitter (split_into_sections) -/

structure RawSection where
  level : Nat
  title : Str
  section_number : Option Str
  chunk_type : Option Str
  start_position : Nat
  end_position : Nat
  raw_line : Str
  content : Str
  parent_section : Option Str
  parent_title : Option Str
  parent_type : Option Str
deriving DecidableEq

structure OpenSection where
  level : Nat
  title : Str
  section_number : Option Str
  chunk_type : Option Str
  start_position : Nat
  raw_line : Str
deriving DecidableEq

/-- Python falsy-or on an optional string against a fallback string. -/
def pyOrStr (a : Option Str) (b : Str) : Str :=
  match a with
  | some s => if s = [] then b else s
  | none => b

/-- Closing a section buffer: join the accumulated content lines with
newlines, strip, and record the end line. -/
def closeSection (o : OpenSection) (content : List Str) (endPos : Nat) :
    RawSection :=
  { level := o.level, title := o.title, section_number := o.section_number,
    chunk_type := o.chunk_type, start_position := o.start_position,
    end_position := endPos, raw_line := o.raw_line,
    content := pyStrip (joinNL content),
    parent_section := none, parent_title := none, parent_type := none }

/-- The line loop of split_into_sections. -/
def splitGo (total : Nat) : List Str → Nat → Option OpenSection → List Str →
    List RawSection → List RawSection
  | [], _, curr, content, acc =>
    match curr with
    | some o => acc ++ [closeSection o content (total - 1)]
    | none => acc
  | line :: rest, i, curr, content, acc =>
    let lc := identify_structure_level line
    if 0 < lc.level then
      let acc' :=
        match curr with
        | some o => acc ++ [closeSection o content (i - 1)]
        | none => acc
      splitGo total rest (i + 1)
        (some ⟨lc.level, pyOrStr lc.title (pyStrip line), lc.section_number,
               lc.chunk_type, i, line⟩) [] acc'
    else
      if pyStrip line ≠ [] then splitGo total rest (i + 1) curr (content ++ [line]) acc
      else splitGo total rest (i + 1) curr content acc

/-- split_into_sections: partition the document into raw sections. -/
def split_into_sections (text : Str) : List RawSection :=
  let lines := splitOnChar '\n' text
  splitGo lines.length lines 0 none [] []

/-! ## Hierarchy builder (establish_hierarchy) -/

/-- Fill the parent fields of a section from the optional stack top. -/
def setParent (p? : Option RawSection) (s : RawSection) : RawSection :=
  match p? with
  | some p =>
    { s with parent_section := some (pyOrStr p.section_number p.title),
             parent_title := some p.title, parent_type := p.chunk_type }
  | none =>
    { s with parent_section := none, parent_title := none, parent_type := none }

/-- One step of establish_hierarchy: pop stack entries at the same or a
deeper level, read the parent off the new top, push the annotated section. -/
def hierStep : List RawSection × List RawSection → RawSection →
    List RawSection × List RawSection
  | (stack, acc), s =>
    let stack' := stack.dropWhile (fun t => s.level ≤ t.level)
    let s' := setParent stack'.head? s
    (s' :: stack', acc ++ [s'])

/-- establish_hierarchy: annotate sections with parent references using a
level-ordered stack. -/
def establish_hierarchy (sections : List RawSection) : List RawSection :=
  (sections.foldl hierStep ([], [])).2

/-! ## Metadata record -/

structure MengingatItem where
  point : Str
  text : Str
deriving DecidableEq

structure Metadata where
  judul : Option Str := none
  nomor : Option Str := none
  tahun : Option Str := none
  tentang : Option Str := none
  menimbang : Option (List MengingatItem) := none
  mengingat : Option (List MengingatItem) := none
  memutuskan : Option Str := none
  menetapkan : Option Str := none
  document_type : Str := []
  tempat_penetapan : Option Str := none
  tanggal_penetapan : Option Str := none
  jabatan_penandatangan : Option Str := none
  nama_penandatangan : Option Str := none
deriving DecidableEq

/-! ## Content chunker (chunk_long_content) -/

structure DocumentChunk where
  level : Nat
  title : Str
  content : Str
  section_number : Option Str := none
  parent_section : Option Str := none
  chunk_type : Option Str := none
  start_position : Nat := 0
  end_position : Nat := 0
  chunk_id : Str := []
  metadata : Option Metadata := none
deriving DecidableEq

/-- Sentence punctuation used by the lookbehind split. -/
def isSentPunct (c : Char) : Bool :=
  c = '.' || c = '!' || c = '?' || c = ';'

/-- Split at whitespace runs preceded by sentence punctuation, consuming
the run; the flag records whether we stand inside such a delimiter run. -/
def splitSentGo : Str → Bool → Str → List Str
  | [], _, cur => [cur.reverse]
  | c :: cs, inDel, cur =>
    if pyWs c then
      if inDel then splitSentGo cs true cur
      else if (match cur with | p :: _ => isSentPunct p | [] => false) then
        cur.reverse :: splitSentGo cs true []
      else splitSentGo cs false (c :: cur)
    else splitSentGo cs false (c :: cur)

/-- re.split on the sentence-boundary pattern of the source. -/
def splitSentences (cs : Str) : List Str := splitSentGo cs false []

/-- Python str.split(sep) for a nonempty separator string, with fuel. -/
def splitOnSubGo (sep : Str) : Nat → Str → Str → List Str
  | 0, cur, rest => [cur.reverse ++ rest]
  | _ + 1, cur, [] => [cur.reverse]
  | fuel + 1, cur, c :: cs =>
    if startsWithCS sep (c :: cs) then
      cur.reverse :: splitOnSubGo sep fuel [] ((c :: cs).drop sep.length)
    else
      splitOnSubGo sep fuel (c :: cur) cs

def splitOnSub (sep : Str) (cs : Str) : List Str :=
  if sep = [] then [cs] else splitOnSubGo sep (cs.length + 1) [] cs

/-- Python list[-2:]. -/
def takeLast2 (l : List Str) : List Str := l.drop (l.length - 2)

/-- The f-string base of a sub-chunk identifier: the section number if the
key holds a value, rendered None otherwise (the key is always present in
the section dictionaries the source builds). -/
def sectionNumberStr (s : Option Str) : Str :=
  match s with
  | some v => v
  | none => "None".data

/-- One iteration of the sentence-accumulation loop of chunk_long_content:
close the buffer when the next sentence would overflow, then seed the new
buffer with the two-fragment overlap or with the sentence alone. -/
def chunkLongStep (max_chunk_size overlap_size : Nat) (md : Metadata)
    (base : RawSection) :
    Str × Nat × List DocumentChunk → Str → Str × Nat × List DocumentChunk
  | (cur, cnt, chunks), sentence =>
    if max_chunk_size < cur.length + sentence.length ∧ cur ≠ [] then
      let cnt' := cnt + 1
      let cid := sectionNumberStr base.section_number ++ "_".data ++ natStr cnt'
      let c : DocumentChunk :=
        { level := base.level,
          title := base.title ++ " (Bagian ".data ++ natStr cnt' ++ ")".data,
          content := pyStrip cur,
          section_number := base.section_number,
          parent_section := base.parent_section,
          chunk_type := base.chunk_type,
          chunk_id := cid, metadata := some md }
      let cur' :=
        if 0 < overlap_size then
          joinSep ". ".data (takeLast2 (splitOnSub ". ".data cur)) ++
            ". ".data ++ sentence
        else sentence
      (cur', cnt', chunks ++ [c])
    else
      ((if cur = [] then sentence else cur ++ " ".data ++ sentence), cnt, chunks)

/-- chunk_long_content: a body at or below the bound becomes one chunk
carrying the section metadata; a longer body is re-split by sentences. -/
def chunk_long_content (max_chunk_size overlap_size : Nat) (md : Metadata)
    (content : Str) (base : RawSection) : List DocumentChunk :=
  if content.length ≤ max_chunk_size then
    [{ level := base.level, title := base.title, content := content,
       section_number := base.section_number,
       parent_section := base.parent_section,
       chunk_type := base.chunk_type,
       start_position := base.start_position,
       end_position := base.end_position,
       metadata := some md }]
  else
    let sentences := splitSentences content
    let st := sentences.foldl (chunkLongStep max_chunk_size overlap_size md base)
      ([], 0, [])
    if pyStrip st.1 ≠ [] then
      let cnt' := st.2.1 + 1
      let cid := sectionNumberStr base.section_number ++ "_".data ++ natStr cnt'
      st.2.2 ++
        [{ level := base.level,
           title := if 1 < cnt' then
               base.title ++ " (Bagian ".data ++ natStr cnt' ++ ")".data
             else base.title,
           content := pyStrip st.1,
           section_number := base.section_number,
           parent_section := base.parent_section,
           chunk_type := base.chunk_type,
           chunk_id := cid, metadata := some md }]
    else st.2.2

/-! ## Metadata extractor (extract_metadata) -/

/-- Is position p a line start (string start or right after a newline)? -/
def isLineStart (cs : Str) (p : Nat) : Bool :=
  p = 0 || cs.get? (p - 1) = some '\n'

/-- Lookahead of the title scan: whitespace then NOMOR or TAHUN, or a
line end (the pattern is compiled with MULTILINE). -/
def lookJudul (cs : Str) (p : Nat) : Bool :=
  let r := cs.drop p
  (let w := wsLen r
   0 < w && (startsWithCI "NOMOR".data (r.drop w) ||
             startsWithCI "TAHUN".data (r.drop w))) ||
  r = [] || r.head? = some '\n'

/-- The title scan at one line start: the regulation-authority words, then
a lazy run of non-newline characters up to the first lookahead position. -/
def matchJudulAt (cs : Str) (p : Nat) : Option Str :=
  if isLineStart cs p then
    let r := cs.drop p
    if startsWithCI "PERATURAN".data r then
      let r1 := r.drop 9
      let w := wsLen r1
      if 0 < w then
        let r2 := r1.drop w
        match ["MENTERI", "PEMERINTAH", "PRESIDEN", "DAERAH"].findSome?
            (fun wd => if startsWithCI wd.data r2 then some wd.length else none) with
        | some wl =>
          let b := 9 + w + wl
          match firstNat 1 (cs.length - (p + b)) (fun l =>
              ((cs.drop (p + b)).take l).all (fun c => !(c = '\n')) &&
              lookJudul cs (p + b + l)) with
          | some l => some (r.take (b + l))
          | none => none
        | none => none
      else none
    else none
  else none

def extractJudul (cs : Str) : Option Str :=
  (firstSome 0 cs.length (matchJudulAt cs)).map pyStrip

/-- The registration-number scan: NOMOR, digits, TAHUN and a 4-digit year
captured as one literal string. -/
def matchNomorAt (cs : Str) (p : Nat) : Option Str :=
  let r := cs.drop p
  if startsWithCI "NOMOR".data r then
    let r1 := r.drop 5
    let w := wsLen r1
    if 0 < w then
      let r2 := r1.drop w
      let d := (r2.takeWhile isAsciiDigit).length
      if 0 < d then
        let r3 := r2.drop d
        let w2 := wsLen r3
        if 0 < w2 then
          let r4 := r3.drop w2
          if startsWithCI "TAHUN".data r4 then
            let r5 := r4.drop 5
            let w3 := wsLen r5
            if 0 < w3 then
              if 4 ≤ ((r5.drop w3).takeWhile isAsciiDigit).length then
                some (r2.take (d + w2 + 5 + w3 + 4))
              else none
            else none
          else none
        else none
      else none
    else none
  else none

def extractNomor (cs : Str) : Option Str :=
  (firstSome 0 cs.length (matchNomorAt cs)).map pyStrip

/-- The year scan: first 4-digit token after a TAHUN marker. -/
def matchTahunAt (cs : Str) (p : Nat) : Option Str :=
  let r := cs.drop p
  if startsWithCI "TAHUN".data r then
    let r1 := r.drop 5
    let w := wsLen r1
    if 0 < w then
      let r2 := r1.drop w
      if 4 ≤ (r2.takeWhile isAsciiDigit).length then some (r2.take 4) else none
    else none
  else none

def extractTahun (cs : Str) : Option Str :=
  (firstSome 0 cs.length (matchTahunAt cs)).map pyStrip

/-- Python str.replace for a single character. -/
def replaceChar (a b : Char) (cs : Str) : Str :=
  cs.map (fun c => if c = a then b else c)

/-- Lookahead of the purpose scan: a justification or reference marker on
the next line, the decision marker, or a line end (MULTILINE dollar). -/
def lookTentang (cs : Str) (p : Nat) : Bool :=
  let r := cs.drop p
  startsWithCI "\nMenimbang".data r || startsWithCI "\nMengingat".data r ||
  startsWithCI "MEMUTUSKAN:".data r || r = [] || r.head? = some '\n'

/-- The purpose scan at one position: TENTANG, whitespace containing a
newline (the greedy run backtracks to its last newline, then to earlier
ones), then a lazy nonempty capture up to the first lookahead position. -/
def matchTentangAt (cs : Str) (p : Nat) : Option Str :=
  let r := cs.drop p
  if startsWithCI "TENTANG".data r then
    let r1 := r.drop 7
    let w := wsLen r1
    if 0 < w then
      descSome 0 (w - 1) (fun k =>
        if r1.get? k = some '\n' then
          let q := p + 7 + k + 1
          (firstNat 1 (cs.length - q) (fun l => lookTentang cs (q + l))).map
            (fun l => (cs.drop q).take l)
        else none)
    else none
  else none

def extractTentang (cs : Str) : Option Str :=
  (firstSome 0 cs.length (matchTentangAt cs)).map
    (fun g => replaceChar '\n' ' ' (pyStrip g))

/-- A lazy capture preceded by a greedy whitespace run and bounded by a
lookahead: the run length is tried longest first, the capture length
shortest first, exactly the backtracking order of the Python engine. -/
def lazyAfterWs (cs : Str) (s : Nat) (minOne : Bool) (look : Nat → Bool) :
    Option (Nat × Nat) :=
  let wmax := wsLen (cs.drop s)
  descSome 0 wmax (fun w =>
    (firstNat (if minOne then 1 else 0) (cs.length - (s + w))
        (fun l => look (s + w + l))).map
      (fun l => (s + w, s + w + l)))

/-- Lookahead terminating the justification block: a reference marker at
the start of a later line, or the decision marker. -/
def lookMenimbang (cs : Str) (q : Nat) : Bool :=
  (cs.get? q = some '\n' &&
   (let r := cs.drop (q + 1)
    let w := wsLen r
    startsWithCI "Mengingat".data (r.drop w) &&
    (let r2 := r.drop (w + 9)
     let w2 := wsLen r2
     (r2.drop w2).head? = some ':'))) ||
  startsWithCI "MEMUTUSKAN:".data (cs.drop q)

/-- The justification scan at one position: the marker, a colon, then a
possibly-empty lazy capture up to the block terminator. -/
def matchMenimbangAt (cs : Str) (p : Nat) : Option Str :=
  let r := cs.drop p
  if startsWithCI "Menimbang".data r then
    let r1 := r.drop 9
    let w := wsLen r1
    if (r1.drop w).head? = some ':' then
      (lazyAfterWs cs (p + 9 + w + 1) false (lookMenimbang cs)).map
        (fun pr => (cs.drop pr.1).take (pr.2 - pr.1))
    else none
  else none

/-- Lookahead of one lettered item: the next letter marker or the end of
the block. -/
def lookLettered (cs : Str) (q : Nat) : Bool :=
  q = cs.length ||
  (match cs.get? q, cs.get? (q + 1), cs.get? (q + 2) with
   | some a, some b, some c => isLowerAZ a && b = '.' && pyWs c
   | _, _, _ => false)

/-- One lettered item match at a position inside the justification block. -/
def matchLetteredAt (cs : Str) (q : Nat) : Option (Char × Str × Nat) :=
  match cs.get? q, cs.get? (q + 1) with
  | some a, some b =>
    if isLowerAZ a && b = '.' then
      (lazyAfterWs cs (q + 2) true (lookLettered cs)).map
        (fun pr => (a, (cs.drop pr.1).take (pr.2 - pr.1), pr.2))
    else none
  | _, _ => none

/-- The scan loop of re.findall for lettered items: leftmost matches,
resuming at each match end. -/
def findallLetteredGo (cs : Str) : Nat → Nat → List (Char × Str)
  | 0, _ => []
  | fuel + 1, q =>
    if q < cs.length then
      match matchLetteredAt cs q with
      | some (a, t, e) => (a, t) :: findallLetteredGo cs fuel (max e (q + 1))
      | none => findallLetteredGo cs fuel (q + 1)
    else []

def findallLettered (cs : Str) : List (Char × Str) :=
  findallLetteredGo cs (cs.length + 1) 0

/-- The justification field: split the captured block into lettered items,
falling back to one synthetic item labeled a. -/
def extractMenimbang (cs : Str) : Option (List MengingatItem) :=
  match firstSome 0 cs.length (matchMenimbangAt cs) with
  | none => none
  | some grp =>
    let content := pyStrip grp
    let items := findallLettered content
    if items ≠ [] then
      some (items.map (fun it =>
        ⟨[it.1], replaceChar '\n' ' ' (pyStrip it.2)⟩))
    else some [⟨['a'], replaceChar '\n' ' ' content⟩]

/-- End offset of the reference-list marker: the position just after the
colon of the first Mengingat marker. -/
def mengingatMarkerEnd (cs : Str) : Option Nat :=
  firstSome 0 cs.length (fun p =>
    let r := cs.drop p
    if startsWithCI "Mengingat".data r then
      let w := wsLen (r.drop 9)
      if (r.drop (9 + w)).head? = some ':' then some (p + 9 + w + 1) else none
    else none)

/-- Start offset of the decision marker terminating the reference block:
a newline, optional whitespace, MEMUTUSKAN, optional whitespace, colon. -/
def memutuskanStart (cs : Str) : Option Nat :=
  firstSome 0 cs.length (fun q =>
    if cs.get? q = some '\n' then
      let r := cs.drop (q + 1)
      let w := wsLen r
      if startsWithCI "MEMUTUSKAN".data (r.drop w) then
        let r2 := r.drop (w + 10)
        let w2 := wsLen r2
        if (r2.drop w2).head? = some ':' then some q else none
      else none
    else none)

/-- The reference block: from the marker end offset to the decision
marker or the end of the text. -/
def takeMengingatBlock (cs : Str) : Option Str :=
  (mengingatMarkerEnd cs).map (fun e =>
    let after := cs.drop e
    match memutuskanStart after with
    | some s => after.take s
    | none => after)

/-- Normalize CRLF pairs to plain newlines (leftmost, non-overlapping). -/
def normCRLF : Str → Str
  | [] => []
  | '\x0d' :: '\n' :: cs => '\n' :: normCRLF cs
  | c :: cs => c :: normCRLF cs

/-- Block normalization: CRLF and CR become newline, NBSP becomes space. -/
def normalizeBlock (cs : Str) : Str :=
  replaceChar '\xA0' ' ' (replaceChar '\x0d' '\n' (normCRLF cs))

/-- One numbered-item marker at a line start: optional whitespace (which
may span lines), digits, a period, optional trailing whitespace. -/
def matchNumberedAt (cs : Str) (q : Nat) : Option (Str × Nat) :=
  if isLineStart cs q then
    let r := cs.drop q
    let w := wsLen r
    let r1 := r.drop w
    let d := (r1.takeWhile isAsciiDigit).length
    if 0 < d then
      if (r1.drop d).head? = some '.' then
        let w2 := wsLen (r1.drop (d + 1))
        some (r1.take d, q + w + d + 1 + w2)
      else none
    else none
  else none

/-- All numbered-item markers of the block in order, non-overlapping. -/
def numberedMatchesGo (cs : Str) : Nat → Nat → List (Nat × Str × Nat)
  | 0, _ => []
  | fuel + 1, q =>
    if q < cs.length then
      match matchNumberedAt cs q with
      | some (num, e) => (q, num, e) :: numberedMatchesGo cs fuel (max e (q + 1))
      | none => numberedMatchesGo cs fuel (q + 1)
    else []

def numberedMatches (cs : Str) : List (Nat × Str × Nat) :=
  numberedMatchesGo cs (cs.length + 1) 0

/-- Pair each marker number with the text running to the next marker or to
the end of the block (the preface before the first marker is dropped). -/
def numberedPairs (cs : Str) : List (Nat × Str × Nat) → List (Str × Str)
  | [] => []
  | (_, num, e) :: rest =>
    let stop := match rest with
      | (s2, _, _) :: _ => s2
      | [] => cs.length
    (num, (cs.drop e).take (stop - e)) :: numberedPairs cs rest

/-- Split the normalized block on digit-period markers that start a line. -/
def splitNumberedItems (cs : Str) : List (Str × Str) :=
  numberedPairs cs (numberedMatches cs)

/-- Collapse each maximal whitespace run to one space (re.sub on the
whitespace class), tracking whether the previous character was collapsed. -/
def collapseWsGo : Str → Bool → Str
  | [], _ => []
  | c :: cs, prevWs =>
    if pyWs c then
      if prevWs then collapseWsGo cs true else ' ' :: collapseWsGo cs true
    else c :: collapseWsGo cs false

def collapseWs (cs : Str) : Str := collapseWsGo cs false

/-- Clean one reference item: collapse whitespace, strip spaces and
semicolons from both ends, drop the item if nothing remains. -/
def cleanMengingatItem (it : Str × Str) : Option MengingatItem :=
  let t := pyStripChars [' ', ';'] (collapseWs it.2)
  if t = [] then none else some ⟨it.1, t⟩

/-- The ordered reference-item list built from the captured block. -/
def mengingatItemsOfBlock (blk : Str) : List MengingatItem :=
  (splitNumberedItems (normalizeBlock blk)).filterMap cleanMengingatItem

/-- The reference field: present exactly when the marker is found. -/
def extractMengingat (cs : Str) : Option (List MengingatItem) :=
  (takeMengingatBlock cs).map mengingatItemsOfBlock

/-- Case-insensitive substring presence. -/
def containsCI (pat : Str) (cs : Str) : Bool :=
  (firstNat 0 cs.length (fun p => startsWithCI pat (cs.drop p))).isSome

/-- Case-sensitive substring presence (Python in operator). -/
def containsCS (pat : Str) (cs : Str) : Bool :=
  (firstNat 0 cs.length (fun p => startsWithCS pat (cs.drop p))).isSome

/-- Lookahead of the enactment-subject scan: a blank line or the first
article heading. -/
def lookMenetapkan (cs : Str) (q : Nat) : Bool :=
  startsWithCS "\n\n".data (cs.drop q) ||
  (startsWithCI "Pasal".data (cs.drop q) &&
   (let r := cs.drop (q + 5)
    let w := wsLen r
    0 < w && (match (r.drop w).head? with
              | some c => isAsciiDigit c
              | none => false)))

/-- The enactment-subject scan at one position. -/
def matchMenetapkanAt (cs : Str) (p : Nat) : Option Str :=
  let r := cs.drop p
  if startsWithCI "Menetapkan".data r then
    let r1 := r.drop 10
    let w := wsLen r1
    if (r1.drop w).head? = some ':' then
      (lazyAfterWs cs (p + 10 + w + 1) true (lookMenetapkan cs)).map
        (fun pr => (cs.drop pr.1).take (pr.2 - pr.1))
    else none
  else none

def extractMenetapkan (cs : Str) : Option Str :=
  (firstSome 0 cs.length (matchMenetapkanAt cs)).map
    (fun g => replaceChar '\n' ' ' (pyStrip g))

/-- The signing-block scan at one position: four lazy captures separated
by literal text and whitespace, anchored by a lookahead newline; nesting
of the searches follows the backtracking order of the engine (lazy groups
ascending, greedy whitespace descending). -/
def matchSigningAt (cs : Str) (p : Nat) : Option (Str × Str × Str × Str) :=
  if startsWithCS "Ditetapkan di ".data (cs.drop p) then
    let a := p + 14
    firstSome 1 (cs.length - a) (fun l1 =>
      let e1 := a + l1
      let w1 := wsLen (cs.drop e1)
      if 0 < w1 && startsWithCS "pada tanggal ".data (cs.drop (e1 + w1)) then
        let b := e1 + w1 + 13
        firstSome 1 (cs.length - b) (fun l2 =>
          let e2 := b + l2
          let wm := wsLen (cs.drop e2)
          if 0 < wm then
            descSome 1 wm (fun w2 =>
              firstSome 1 (cs.length - (e2 + w2)) (fun l3 =>
                let e3 := e2 + w2 + l3
                if cs.get? e3 = some ',' then
                  let c0 := e3 + 1
                  let w3 := wsLen (cs.drop c0)
                  if startsWithCS "ttd".data (cs.drop (c0 + w3)) then
                    let d0 := c0 + w3 + 3
                    let wm4 := wsLen (cs.drop d0)
                    if 0 < wm4 then
                      descSome 1 wm4 (fun w4 =>
                        (firstNat 1 (cs.length - (d0 + w4)) (fun l4 =>
                            cs.get? (d0 + w4 + l4) = some '\n')).map
                          (fun l4 =>
                            ((cs.drop a).take l1,
                             (cs.drop b).take l2,
                             (cs.drop (e2 + w2)).take l3,
                             (cs.drop (d0 + w4)).take l4)))
                    else none
                  else none
                else none))
          else none)
      else none)
  else none

def extractSigning (cs : Str) : Option (Str × Str × Str × Str) :=
  firstSome 0 cs.length (matchSigningAt cs)

/-- extract_metadata: the fixed ordered set of independent header scans. -/
def extract_metadata (text : Str) : Metadata :=
  let signing := extractSigning text
  { judul := extractJudul text,
    nomor := extractNomor text,
    tahun := extractTahun text,
    tentang := extractTentang text,
    menimbang := extractMenimbang text,
    mengingat := extractMengingat text,
    memutuskan := if containsCI "MEMUTUSKAN:".data text then
        some "MEMUTUSKAN:".data
      else none,
    menetapkan := extractMenetapkan text,
    document_type := if containsCS "MENTERI".data text then
        "Peraturan Menteri".data
      else "Peraturan".data,
    tempat_penetapan := signing.map (fun g => pyStrip g.1),
    tanggal_penetapan := signing.map (fun g => pyStrip g.2.1),
    jabatan_penandatangan := signing.map (fun g => pyStrip g.2.2.1),
    nama_penandatangan := signing.map (fun g => pyStrip g.2.2.2) }

/-! ## Metadata chunk and document assembly -/

/-- The labeled lines of the level-1 chunk body: one line per present
scalar field, a header line and indented item lines per present list. -/
def metadataLines (md : Metadata) : List Str :=
  (match md.judul with
   | some s => if s ≠ [] then ["Judul: ".data ++ s] else []
   | none => []) ++
  (match md.nomor with
   | some s => if s ≠ [] then ["Nomor: ".data ++ s] else []
   | none => []) ++
  (match md.tahun with
   | some s => if s ≠ [] then ["Tahun: ".data ++ s] else []
   | none => []) ++
  (match md.tentang with
   | some s => if s ≠ [] then ["Tentang: ".data ++ s] else []
   | none => []) ++
  (match md.menimbang with
   | some l => if l ≠ [] then
       "\nMenimbang:".data ::
         l.map (fun it => "  ".data ++ it.point ++ ". ".data ++ it.text)
     else []
   | none => []) ++
  (match md.mengingat with
   | some l => if l ≠ [] then
       "\nMengingat:".data ::
         l.map (fun it => "  ".data ++ it.point ++ ". ".data ++ it.text)
     else []
   | none => [])

/-- create_metadata_chunk: the synthesized level-1 chunk. -/
def create_metadata_chunk (md : Metadata) : DocumentChunk :=
  { level := 1, title := "Metadata Dokumen".data,
    content := joinNL (metadataLines md),
    chunk_type := some "metadata".data,
    chunk_id := "metadata".data,
    metadata := some md }

/-- chunk_document: metadata chunk first, then one or more chunks per
non-empty section in document order. -/
def chunk_document (max_chunk_size overlap_size : Nat) (text : Str) :
    List DocumentChunk :=
  let md := extract_metadata text
  let sections := establish_hierarchy (split_into_sections text)
  create_metadata_chunk md ::
    (sections.filter (fun s => s.content ≠ [])).flatMap
      (fun s => chunk_long_content max_chunk_size overlap_size md s.content s)

/-! ## Derived notions used by the verification -/

set_option maxRecDepth 40000

/-- The parent key a stacked section contributes: its section number, or
its title when the number is absent or empty. -/
def sKey (s : RawSection) : Str := pyOrStr s.section_number s.title

/-- Forget the parent annotation of a section. -/
def stripParents (s : RawSection) : RawSection :=
  { s with parent_section := none, parent_title := none, parent_type := none }

/-- The last level-2 section of a list, if any. -/
def lastLev2 (l : List RawSection) : Option RawSection :=
  (l.filter (fun s => s.level = 2)).getLast?

/-- The hierarchy stack determined by the already-processed sections:
empty, or the last section alone when it is a chapter, or the last
section above the most recent chapter. -/
def stackInv (acc : List RawSection) : List RawSection :=
  match acc.getLast? with
  | none => []
  | some a => if a.level = 2 then [a] else a :: (lastLev2 acc.dropLast).toList

/-- Number of structural heading lines of a document. -/
def structLineCount (text : Str) : Nat :=
  ((splitOnChar '\n' text).filter
    (fun l => 0 < (identify_structure_level l).level)).length

/-- The sub-chunk identifier the oversize path assigns. -/
def chunkIdOf (base : RawSection) (n : Nat) : Str :=
  sectionNumberStr base.section_number ++ "_".data ++ natStr n

/-- The concrete document of the first scenario. -/
def c1text : Str :=
  "BAB I\nKETENTUAN UMUM\nPasal 1\nIsi pasal satu.\nPasal 2\nIsi pasal dua.".data

/-- A document whose chapter heading has no body of its own. -/
def emptyBabText : Str := "BAB I\nPasal 1\nIsi.".data

/-- A document with a blank line inside an article body. -/
def blankLineText : Str := "Pasal 1\nA\n\nB".data

/-- A concrete article section used as a re-chunking base. -/
def secP1 : RawSection :=
  { level := 3, title := "Pasal 1".data, section_number := some "Pasal 1".data,
    chunk_type := some "pasal".data, start_position := 0, end_position := 0,
    raw_line := [], content := [], parent_section := none, parent_title := none,
    parent_type := none }

/-- The metadata record extracted from the first scenario document. -/
def c1meta : Metadata := { document_type := "Peraturan".data }

/-! ## Helper lemmas -/

lemma mem_of_getLast?_eq {α : Type} {l : List α} {a : α}
    (h : l.getLast? = some a) : a ∈ l := by
  have hx : a ∈ l.getLast? := h
  obtain ⟨hne, heq⟩ := List.mem_getLast?_eq_getLast hx
  rw [heq]
  exact List.getLast_mem hne

lemma mem_iff_get {α : Type} {l : List α} {x : α} :
    x ∈ l ↔ ∃ i, ∃ hi : i < l.length, l.get ⟨i, hi⟩ = x := by
  rw [List.mem_iff_get]
  constructor
  · rintro ⟨n, hn⟩; exact ⟨n.1, n.2, hn⟩
  · rintro ⟨i, hi, hg⟩; exact ⟨⟨i, hi⟩, hg⟩

lemma flatMap_length_ones {α β : Type} (f : α → List β) :
    ∀ l : List α, (∀ x ∈ l, (f x).length = 1) → (l.flatMap f).length = l.length
  | [], _ => rfl
  | a :: l, h => by
    rw [List.flatMap_cons, List.length_append, h a (List.mem_cons_self a l),
      flatMap_length_ones f l (fun x hx => h x (List.mem_cons_of_mem a hx))]
    simp [Nat.add_comm]

/-! ## Content chunker lemmas: the single-chunk path and the id counter -/

lemma chunk_long_single (maxS ov : Nat) (md : Metadata) (content : Str)
    (base : RawSection) (h : content.length ≤ maxS) :
    chunk_long_content maxS ov md content base =
      [{ level := base.level, title := base.title, content := content,
         section_number := base.section_number,
         parent_section := base.parent_section,
         chunk_type := base.chunk_type,
         start_position := base.start_position,
         end_position := base.end_position,
         metadata := some md }] := by
  unfold chunk_long_content
  rw [if_pos h]

lemma ids_append (base : RawSection) (chunks : List DocumentChunk) (cnt : Nat)
    (c : DocumentChunk) (hlen : chunks.length = cnt)
    (hids : ∀ k, ∀ hk : k < chunks.length,
      (chunks.get ⟨k, hk⟩).chunk_id = chunkIdOf base (k + 1))
    (hc : c.chunk_id = chunkIdOf base (cnt + 1)) :
    (chunks ++ [c]).length = cnt + 1 ∧
    ∀ k, ∀ hk : k < (chunks ++ [c]).length,
      ((chunks ++ [c]).get ⟨k, hk⟩).chunk_id = chunkIdOf base (k + 1) := by
  constructor
  · simp [hlen]
  · intro k hk
    have hk' : k < chunks.length + 1 := by simpa using hk
    rcases Nat.lt_or_ge k chunks.length with hlt | hge
    · have hg : (chunks ++ [c]).get ⟨k, hk⟩ = chunks.get ⟨k, hlt⟩ := by
        simp [List.getElem_append_left hlt]
      rw [hg]; exact hids k hlt
    · have hkeq : k = chunks.length := by omega
      subst hkeq
      have hg : (chunks ++ [c]).get ⟨chunks.length, hk⟩ = c := by simp
      rw [hg, hc, hlen]

lemma chunkLong_fold_ids (maxS ov : Nat) (md : Metadata) (base : RawSection) :
    ∀ (sentences : List Str) (cur : Str) (cnt : Nat)
      (chunks : List DocumentChunk),
    chunks.length = cnt →
    (∀ k, ∀ hk : k < chunks.length,
      (chunks.get ⟨k, hk⟩).chunk_id = chunkIdOf base (k + 1)) →
    (sentences.foldl (chunkLongStep maxS ov md base) (cur, cnt, chunks)).2.2.length
        = (sentences.foldl (chunkLongStep maxS ov md base) (cur, cnt, chunks)).2.1 ∧
    ∀ k, ∀ hk : k <
      (sentences.foldl (chunkLongStep maxS ov md base) (cur, cnt, chunks)).2.2.length,
      ((sentences.foldl (chunkLongStep maxS ov md base)
          (cur, cnt, chunks)).2.2.get ⟨k, hk⟩).chunk_id = chunkIdOf base (k + 1)
  | [], cur, cnt, chunks, hlen, hids => by
    exact ⟨by simpa using hlen, by simpa using hids⟩
  | s :: rest, cur, cnt, chunks, hlen, hids => by
    rw [List.foldl_cons]
    by_cases h : maxS < cur.length + s.length ∧ cur ≠ []
    · have hstep : chunkLongStep maxS ov md base (cur, cnt, chunks) s =
        ((if 0 < ov then
            joinSep ". ".data (takeLast2 (splitOnSub ". ".data cur)) ++
              ". ".data ++ s
          else s), cnt + 1, chunks ++
          [{ level := base.level,
             title := base.title ++ " (Bagian ".data ++ natStr (cnt + 1) ++ ")".data,
             content := pyStrip cur,
             section_number := base.section_number,
             parent_section := base.parent_section,
             chunk_type := base.chunk_type,
             chunk_id := chunkIdOf base (cnt + 1), metadata := some md }]) := by
        simp only [chunkLongStep, if_pos h, chunkIdOf]
      rw [hstep]
      have hpair := ids_append base chunks cnt
        { level := base.level,
          title := base.title ++ " (Bagian ".data ++ natStr (cnt + 1) ++ ")".data,
          content := pyStrip cur,
          section_number := base.section_number,
          parent_section := base.parent_section,
          chunk_type := base.chunk_type,
          chunk_id := chunkIdOf base (cnt + 1), metadata := some md }
        hlen hids rfl
      exact chunkLong_fold_ids maxS ov md base rest _ (cnt + 1) _ hpair.1 hpair.2
    · have hstep : chunkLongStep maxS ov md base (cur, cnt, chunks) s =
        ((if cur = [] then s else cur ++ " ".data ++ s), cnt, chunks) := by
        simp only [chunkLongStep, if_neg h]
      rw [hstep]
      exact chunkLong_fold_ids maxS ov md base rest _ cnt chunks hlen hids

lemma chunk_long_ids (maxS ov : Nat) (md : Metadata) (content : Str)
    (base : RawSection) (h : maxS < content.length) :
    ∀ k, ∀ hk : k < (chunk_long_content maxS ov md content base).length,
      ((chunk_long_content maxS ov md content base).get ⟨k, hk⟩).chunk_id =
        chunkIdOf base (k + 1) := by
  have hnot : ¬ content.length ≤ maxS := by omega
  obtain ⟨hl, hi⟩ := chunkLong_fold_ids maxS ov md base (splitSentences content)
    [] 0 [] rfl (by intro k hk; simp at hk)
  suffices H : ∀ L, chunk_long_content maxS ov md content base = L →
      ∀ k, ∀ hk : k < L.length,
        (L.get ⟨k, hk⟩).chunk_id = chunkIdOf base (k + 1) by
    exact H _ rfl
  intro L hL
  unfold chunk_long_content at hL
  rw [if_neg hnot] at hL
  simp only [] at hL
  by_cases hs : pyStrip (List.foldl (chunkLongStep maxS ov md base) ([], 0, [])
      (splitSentences content)).1 ≠ []
  · rw [if_pos hs] at hL
    subst hL
    exact (ids_append base _ _ _ hl hi rfl).2
  · rw [if_neg hs] at hL
    subst hL
    exact hi

/-! ## Overlap-size independence and field preservation -/

lemma chunkLongStep_ovPos (maxS ov : Nat) (md : Metadata) (base : RawSection)
    (h : 0 < ov) (st : Str × Nat × List DocumentChunk) (s : Str) :
    chunkLongStep maxS ov md base st s = chunkLongStep maxS 1 md base st s := by
  obtain ⟨cur, cnt, chunks⟩ := st
  simp only [chunkLongStep, h, if_true, Nat.lt_irrefl, Nat.zero_lt_one]

lemma chunkLong_fold_ovPos (maxS ov : Nat) (md : Metadata) (base : RawSection)
    (h : 0 < ov) :
    ∀ (sentences : List Str) (st : Str × Nat × List DocumentChunk),
    sentences.foldl (chunkLongStep maxS ov md base) st =
      sentences.foldl (chunkLongStep maxS 1 md base) st
  | [], _ => rfl
  | s :: rest, st => by
    rw [List.foldl_cons, List.foldl_cons, chunkLongStep_ovPos maxS ov md base h,
      chunkLong_fold_ovPos maxS ov md base h rest]

lemma chunk_long_ovPos (maxS ov : Nat) (md : Metadata) (content : Str)
    (base : RawSection) (h : 0 < ov) :
    chunk_long_content maxS ov md content base =
      chunk_long_content maxS 1 md content base := by
  unfold chunk_long_content
  simp only []
  rw [chunkLong_fold_ovPos maxS ov md base h]

lemma chunkLong_fold_fields (maxS ov : Nat) (md : Metadata) (base : RawSection) :
    ∀ (sentences : List Str) (st : Str × Nat × List DocumentChunk),
    (∀ c ∈ st.2.2, c.level = base.level ∧ c.parent_section = base.parent_section) →
    ∀ c ∈ (sentences.foldl (chunkLongStep maxS ov md base) st).2.2,
      c.level = base.level ∧ c.parent_section = base.parent_section
  | [], st, hst => by simpa using hst
  | s :: rest, st, hst => by
    rw [List.foldl_cons]
    refine chunkLong_fold_fields maxS ov md base rest _ ?_
    obtain ⟨cur, cnt, chunks⟩ := st
    by_cases h : maxS < cur.length + s.length ∧ cur ≠ []
    · simp only [chunkLongStep, if_pos h]
      intro c hc
      rcases List.mem_append.mp hc with hc | hc
      · exact hst c hc
      · rcases List.mem_singleton.mp hc with rfl
        exact ⟨rfl, rfl⟩
    · simp only [chunkLongStep, if_neg h]
      exact hst

/-- Every chunk the content chunker emits carries the level and parent of
its base section. -/
lemma chunk_long_fields (maxS ov : Nat) (md : Metadata) (content : Str)
    (base : RawSection) :
    ∀ c ∈ chunk_long_content maxS ov md content base,
      c.level = base.level ∧ c.parent_section = base.parent_section := by
  intro c hc
  by_cases h : content.length ≤ maxS
  · rw [chunk_long_single maxS ov md content base h] at hc
    rcases List.mem_singleton.mp hc with rfl
    exact ⟨rfl, rfl⟩
  · unfold chunk_long_content at hc
    rw [if_neg h] at hc
    simp only [] at hc
    have hfold := chunkLong_fold_fields maxS ov md base (splitSentences content)
      ([], 0, []) (by intro c hc; simp at hc)
    by_cases hs : pyStrip (List.foldl (chunkLongStep maxS ov md base) ([], 0, [])
        (splitSentences content)).1 ≠ []
    · rw [if_pos hs] at hc
      rcases List.mem_append.mp hc with hc | hc
      · exact hfold c hc
      · rcases List.mem_singleton.mp hc with rfl
        exact ⟨rfl, rfl⟩
    · rw [if_neg hs] at hc
      exact hfold c hc

/-! ## Claim C1 -/

/-- C1 counterexample: on the scenario input the pipeline indeed yields 4
chunks, but the level-2 BAB I chunk IS emitted, with the non-empty body
KETENTUAN UMUM, contradicting the claim that it is dropped for having an
empty body. -/
theorem c1_counterexample :
    (chunk_document 1500 100 c1text).length = 4 ∧
    ∃ c ∈ chunk_document 1500 100 c1text,
      c.level = 2 ∧ c.title = "BAB I".data ∧
      c.content = "KETENTUAN UMUM".data ∧ c.content ≠ [] := by
  decide

/-- C1 (amended): the scenario input yields exactly these 4 chunks: the
level-1 metadata chunk with empty content, the level-2 BAB I chunk whose
body is the heading line KETENTUAN UMUM, and the two level-3 article
chunks, each with parent_section BAB I. -/
theorem c1_amended :
    chunk_document 1500 100 c1text =
      [{ level := 1, title := "Metadata Dokumen".data, content := [],
         section_number := none, parent_section := none,
         chunk_type := some "metadata".data, start_position := 0,
         end_position := 0, chunk_id := "metadata".data,
         metadata := some c1meta },
       { level := 2, title := "BAB I".data, content := "KETENTUAN UMUM".data,
         section_number := none, parent_section := none,
         chunk_type := some "major_section".data, start_position := 0,
         end_position := 1, chunk_id := [], metadata := some c1meta },
       { level := 3, title := "Pasal 1".data, content := "Isi pasal satu.".data,
         section_number := some "Pasal 1".data,
         parent_section := some "BAB I".data,
         chunk_type := some "pasal".data, start_position := 2,
         end_position := 3, chunk_id := [], metadata := some c1meta },
       { level := 3, title := "Pasal 2".data, content := "Isi pasal dua.".data,
         section_number := some "Pasal 2".data,
         parent_section := some "BAB I".data,
         chunk_type := some "pasal".data, start_position := 4,
         end_position := 5, chunk_id := [], metadata := some c1meta }] := by
  decide

/-! ## Claim C3 -/

/-- C3 counterexample: a body longer than the bound but containing no
sentence boundary takes the oversize path and produces exactly one chunk,
which nevertheless carries the sub-chunk identifier Pasal 1_1 — refuting
the claim that an identifier is assigned only when more than one chunk
results from the section. -/
theorem c3_counterexample :
    (chunk_long_content 100 100 c1meta (List.replicate 101 'a') secP1).length = 1 ∧
    ∀ c ∈ chunk_long_content 100 100 c1meta (List.replicate 101 'a') secP1,
      c.chunk_id = "Pasal 1_1".data ∧ c.chunk_id ≠ [] ∧
      c.title = "Pasal 1".data := by
  decide

/-- C3 (amended): a body at or below the bound yields exactly one chunk
with the unmodified title and empty chunk identifier; on the oversize
path every emitted chunk, including a sole one, receives the identifier
formed from the section number (or the rendered missing value) and the
1-based part counter. -/
theorem c3_chunk_id_assignment (maxS ov : Nat) (md : Metadata) (content : Str)
    (base : RawSection) :
    (content.length ≤ maxS →
      chunk_long_content maxS ov md content base =
        [{ level := base.level, title := base.title, content := content,
           section_number := base.section_number,
           parent_section := base.parent_section,
           chunk_type := base.chunk_type,
           start_position := base.start_position,
           end_position := base.end_position,
           metadata := some md }]) ∧
    (maxS < content.length →
      ∀ k, ∀ hk : k < (chunk_long_content maxS ov md content base).length,
        ((chunk_long_content maxS ov md content base).get ⟨k, hk⟩).chunk_id =
          chunkIdOf base (k + 1)) :=
  ⟨chunk_long_single maxS ov md content base,
   chunk_long_ids maxS ov md content base⟩

/-- C3 witness: both branches at concrete inputs. -/
theorem c3_witness :
    ("short".data.length ≤ 100 ∧
      chunk_long_content 100 7 c1meta "short".data secP1 =
        [{ level := 3, title := "Pasal 1".data, content := "short".data,
           section_number := some "Pasal 1".data, parent_section := none,
           chunk_type := some "pasal".data, start_position := 0,
           end_position := 0, metadata := some c1meta }]) ∧
    (100 < (List.replicate 101 'a').length ∧
      ((chunk_long_content 100 100 c1meta (List.replicate 101 'a')
          secP1).get ⟨0, by decide⟩).chunk_id = chunkIdOf secP1 (0 + 1)) :=
  ⟨⟨by decide, (c3_chunk_id_assignment 100 7 c1meta "short".data secP1).1 (by decide)⟩,
   ⟨by decide, (c3_chunk_id_assignment 100 100 c1meta (List.replicate 101 'a')
      secP1).2 (by decide) 0 (by decide)⟩⟩

/-! ## Claim C7 -/

/-- C7: whenever the accumulation loop closes a buffer because the next
sentence would overflow the bound, the next buffer is seeded with the last
two period-delimited fragments of the closed buffer followed by the
triggering sentence when overlap_size is positive, and with the sentence
alone when overlap_size is zero. -/
theorem c7_overlap_seeding (maxS ov : Nat) (md : Metadata) (base : RawSection)
    (cur : Str) (cnt : Nat) (chunks : List DocumentChunk) (s : Str)
    (h1 : maxS < cur.length + s.length) (h2 : cur ≠ []) :
    (chunkLongStep maxS ov md base (cur, cnt, chunks) s).1 =
      if 0 < ov then
        joinSep ". ".data (takeLast2 (splitOnSub ". ".data cur)) ++
          ". ".data ++ s
      else s := by
  simp only [chunkLongStep, if_pos (And.intro h1 h2)]

/-- C7 witness: a concrete buffer close with both overlap settings. -/
theorem c7_witness :
    ((1 < "ab. cd".data.length + "x".data.length ∧ "ab. cd".data ≠ []) ∧
      (chunkLongStep 1 1 c1meta secP1 ("ab. cd".data, 0, []) "x".data).1 =
        if 0 < 1 then
          joinSep ". ".data (takeLast2 (splitOnSub ". ".data "ab. cd".data)) ++
            ". ".data ++ "x".data
        else "x".data) ∧
    (chunkLongStep 1 0 c1meta secP1 ("ab. cd".data, 0, []) "x".data).1 =
      "x".data :=
  ⟨⟨⟨by decide, by decide⟩,
    c7_overlap_seeding 1 1 c1meta secP1 "ab. cd".data 0 [] "x".data
      (by decide) (by decide)⟩,
   by decide⟩

/-! ## Claim C10 -/

/-- C10: the output of chunk_long_content depends on overlap_size only
through its sign — any two strictly positive overlap sizes produce
identical chunk sequences. -/
theorem c10_overlap_magnitude_independent (maxS o1 o2 : Nat) (md : Metadata)
    (content : Str) (base : RawSection) (h1 : 0 < o1) (h2 : 0 < o2) :
    chunk_long_content maxS o1 md content base =
      chunk_long_content maxS o2 md content base := by
  rw [chunk_long_ovPos maxS o1 md content base h1,
    chunk_long_ovPos maxS o2 md content base h2]

/-- C10 witness: overlap sizes 7 and 300 give the same chunks on a body
that is split three ways. -/
theorem c10_witness :
    0 < 7 ∧ 0 < 300 ∧
    chunk_long_content 12 7 c1meta "aaa. bbb. ccc. ddd.".data secP1 =
      chunk_long_content 12 300 c1meta "aaa. bbb. ccc. ddd.".data secP1 :=
  ⟨by decide, by decide,
   c10_overlap_magnitude_independent 12 7 300 c1meta
     "aaa. bbb. ccc. ddd.".data secP1 (by decide) (by decide)⟩

/-! ## Claim C8 -/

/-- Modelled from the claim text, for comparison only: clean an item by
collapsing whitespace and stripping semicolons and spaces from the
trailing end only. -/
def cleanMengingatItemTrailingOnly (it : Str × Str) : Option MengingatItem :=
  let t := ((collapseWs it.2).reverse.dropWhile (fun c => c = ' ' || c = ';')).reverse
  if t = [] then none else some ⟨it.1, t⟩

/-- The reference-list pipeline exactly as the claim words it, with the
trailing-only strip. -/
def mengingatClaimPipeline (text : Str) : Option (List MengingatItem) :=
  (takeMengingatBlock text).map (fun blk =>
    (splitNumberedItems (normalizeBlock blk)).filterMap
      cleanMengingatItemTrailingOnly)

def c8text : Str := "Mengingat:\n1. ;First ref;\nMEMUTUSKAN:".data

def c8btext : Str := "Mengingat:\n1. First ref;\n2. Second ref;\nMEMUTUSKAN:".data

def c8blk : Str := "\n1. First ref;\n2. Second ref;".data

/-- C8 counterexample: the code strips semicolons and spaces from both
ends of an item, not only from the trailing end: on an item whose text
begins with a semicolon the code output differs from the pipeline the
claim describes. -/
theorem c8_counterexample :
    (extract_metadata c8text).mengingat =
      some [⟨"1".data, "First ref".data⟩] ∧
    mengingatClaimPipeline c8text = some [⟨"1".data, ";First ref".data⟩] ∧
    (extract_metadata c8text).mengingat ≠ mengingatClaimPipeline c8text := by
  decide

/-- C8 (amended): with the marker present, the mengingat field is exactly
the block up to the decision marker, normalized, split on digit-period
markers at line starts, each item whitespace-collapsed and stripped of
semicolons and spaces at both ends, empty items dropped; consequently
every produced item has non-empty text. -/
theorem c8_mengingat_extraction (text : Str) (blk : Str)
    (h : takeMengingatBlock text = some blk) :
    (extract_metadata text).mengingat =
      some ((splitNumberedItems (normalizeBlock blk)).filterMap
        cleanMengingatItem) ∧
    ∀ it ∈ (splitNumberedItems (normalizeBlock blk)).filterMap
        cleanMengingatItem, it.text ≠ [] := by
  constructor
  · show extractMengingat text = _
    rw [extractMengingat, h]
    rfl
  · intro it hit
    obtain ⟨a, _, hfa⟩ := List.mem_filterMap.mp hit
    unfold cleanMengingatItem at hfa
    by_cases ht : pyStripChars [' ', ';'] (collapseWs a.2) = []
    · rw [if_pos ht] at hfa
      exact absurd hfa (by simp)
    · rw [if_neg ht] at hfa
      have := Option.some.inj hfa
      rw [← this]
      exact ht

/-- C8 witness: the spec scenario block produces the two cleaned items. -/
theorem c8_witness :
    takeMengingatBlock c8btext = some c8blk ∧
    (extract_metadata c8btext).mengingat =
      some [⟨"1".data, "First ref".data⟩, ⟨"2".data, "Second ref".data⟩] ∧
    ∀ it ∈ (splitNumberedItems (normalizeBlock c8blk)).filterMap
        cleanMengingatItem, it.text ≠ [] :=
  ⟨by decide,
   by rw [(c8_mengingat_extraction c8btext c8blk (by decide)).1]; decide,
   (c8_mengingat_extraction c8btext c8blk (by decide)).2⟩

/-! ## Claim C9 -/

/-- C9 counterexample: on the empty document the extracted record has the
document_type field present (it is always assigned), yet the metadata
chunk content is empty, containing no labeled line for it — so not every
present field of the record contributes a line. -/
theorem c9_counterexample :
    (create_metadata_chunk (extract_metadata [])).content = [] ∧
    (extract_metadata []).document_type = "Peraturan".data := by
  decide

/-- C9 (amended): the metadata chunk content is exactly the rendering of
the six fields judul, nomor, tahun, tentang, menimbang and mengingat
(labeled lines, list items as indented point-text sub-lines, absent or
empty fields contributing nothing); all remaining record fields never
influence the content. -/
theorem c9_metadata_rendering (md : Metadata) :
    (create_metadata_chunk md).content = joinNL (metadataLines md) ∧
    ∀ md' : Metadata, md.judul = md'.judul → md.nomor = md'.nomor →
      md.tahun = md'.tahun → md.tentang = md'.tentang →
      md.menimbang = md'.menimbang → md.mengingat = md'.mengingat →
      (create_metadata_chunk md).content = (create_metadata_chunk md').content := by
  refine ⟨rfl, ?_⟩
  intro md' h1 h2 h3 h4 h5 h6
  show joinNL (metadataLines md) = joinNL (metadataLines md')
  unfold metadataLines
  rw [h1, h2, h3, h4, h5, h6]

/-- C9 witness: records differing only in fields outside the six rendered
ones produce the same chunk content. -/
theorem c9_witness :
    (create_metadata_chunk c1meta).content = joinNL (metadataLines c1meta) ∧
    (create_metadata_chunk c1meta).content =
      (create_metadata_chunk
        { memutuskan := some "MEMUTUSKAN:".data,
          document_type := "Peraturan Menteri".data }).content :=
  ⟨(c9_metadata_rendering c1meta).1,
   (c9_metadata_rendering c1meta).2
     { memutuskan := some "MEMUTUSKAN:".data,
       document_type := "Peraturan Menteri".data }
     rfl rfl rfl rfl rfl rfl⟩

/-! ## Claim C6 -/

/-- Modelled from the claim text, for comparison only: the splitter line
loop with every level-0 line, blank lines included, accumulated as body
content of the open section. -/
def splitGoClaim (total : Nat) : List Str → Nat → Option OpenSection →
    List Str → List RawSection → List RawSection
  | [], _, curr, content, acc =>
    match curr with
    | some o => acc ++ [closeSection o content (total - 1)]
    | none => acc
  | line :: rest, i, curr, content, acc =>
    let lc := identify_structure_level line
    if 0 < lc.level then
      let acc' :=
        match curr with
        | some o => acc ++ [closeSection o content (i - 1)]
        | none => acc
      splitGoClaim total rest (i + 1)
        (some ⟨lc.level, pyOrStr lc.title (pyStrip line), lc.section_number,
               lc.chunk_type, i, line⟩) [] acc'
    else
      splitGoClaim total rest (i + 1) curr (content ++ [line]) acc

def split_into_sectionsClaim (text : Str) : List RawSection :=
  let lines := splitOnChar '\n' text
  splitGoClaim lines.length lines 0 none [] []

/-- C6 counterexample: a blank line inside an article body is discarded
by the code, while the claim says it is accumulated as body content: on
the concrete input the code body is A newline B, not A blank-line B. -/
theorem c6_counterexample :
    (split_into_sections blankLineText).map (fun s => s.content) =
      ["A\nB".data] ∧
    (split_into_sectionsClaim blankLineText).map (fun s => s.content) =
      ["A\n\nB".data] ∧
    ¬ ((split_into_sections blankLineText).map (fun s => s.content) =
       (split_into_sectionsClaim blankLineText).map (fun s => s.content)) := by
  decide

/-- C6 (amended): the classifier tests the major-section rules before the
article rules with first-match-wins semantics, returning level 2 with
chunk type major_section or level 3 with chunk type pasal; a blank or
unmatched line yields level 0, and the splitter accumulates a level-0
line as body content only when it is non-blank, discarding blank lines. -/
theorem c6_classifier_order (line : Str) :
    (pyStrip line = [] → identify_structure_level line = ⟨0, none, none, none⟩) ∧
    (∀ g, pyStrip line ≠ [] →
      firstRule majorSectionRules (pyStrip line) = some g →
      identify_structure_level line =
        ⟨2, none, some g, some "major_section".data⟩) ∧
    (∀ g, pyStrip line ≠ [] →
      firstRule majorSectionRules (pyStrip line) = none →
      firstRule pasalRules (pyStrip line) = some g →
      identify_structure_level line = ⟨3, some g, some g, some "pasal".data⟩) ∧
    (firstRule majorSectionRules (pyStrip line) = none →
      firstRule pasalRules (pyStrip line) = none →
      identify_structure_level line = ⟨0, none, none, none⟩) ∧
    (∀ total rest i curr content acc,
      (identify_structure_level line).level = 0 →
      splitGo total (line :: rest) i curr content acc =
        splitGo total rest (i + 1) curr
          (if pyStrip line = [] then content else content ++ [line]) acc) := by
  refine ⟨?_, ?_, ?_, ?_, ?_⟩
  · intro h
    simp [identify_structure_level, h]
  · intro g hne hg
    simp [identify_structure_level, hne, hg]
  · intro g hne hm hg
    simp [identify_structure_level, hne, hm, hg]
  · intro hm hg
    by_cases h : pyStrip line = []
    · simp [identify_structure_level, h]
    · simp [identify_structure_level, h, hm, hg]
  · intro total rest i curr content acc h0
    by_cases hb : pyStrip line = []
    · simp only [splitGo, h0, Nat.lt_irrefl, if_false, hb, ne_eq,
        not_true_eq_false, if_true]
    · simp only [splitGo, h0, Nat.lt_irrefl, if_false, hb, ne_eq,
        not_false_eq_true, if_true]

/-- C6 witness: the rules applied to a chapter heading, and the splitter
step on a blank line. -/
theorem c6_witness :
    (pyStrip "BAB I".data ≠ [] ∧
      firstRule majorSectionRules (pyStrip "BAB I".data) = some "BAB I".data ∧
      identify_structure_level "BAB I".data =
        ⟨2, none, some "BAB I".data, some "major_section".data⟩) ∧
    ((identify_structure_level " ".data).level = 0 ∧
      splitGo 2 [" ".data] 1 none ["A".data] [] =
        splitGo 2 [] 2 none
          (if pyStrip " ".data = [] then ["A".data] else ["A".data] ++ [" ".data])
          []) :=
  ⟨⟨by decide, by decide,
    (c6_classifier_order "BAB I".data).2.1 "BAB I".data (by decide) (by decide)⟩,
   ⟨by decide,
    (c6_classifier_order " ".data).2.2.2.2 2 [] 1 none ["A".data] [] (by decide)⟩⟩

/-! ## Hierarchy builder lemmas -/

lemma setParent_level (p? : Option RawSection) (s : RawSection) :
    (setParent p? s).level = s.level := by cases p? <;> rfl

lemma setParent_parent (p? : Option RawSection) (s : RawSection) :
    (setParent p? s).parent_section = p?.map sKey := by cases p? <;> rfl

lemma stripParents_setParent (p? : Option RawSection) (s : RawSection) :
    stripParents (setParent p? s) = stripParents s := by cases p? <;> rfl

lemma hierGo_strip : ∀ (l : List RawSection) (stack acc : List RawSection),
    ((l.foldl hierStep (stack, acc)).2).map stripParents =
      acc.map stripParents ++ l.map stripParents
  | [], stack, acc => by simp
  | s :: rest, stack, acc => by
    rw [List.foldl_cons]
    have hstep : hierStep (stack, acc) s =
        (setParent (stack.dropWhile (fun t => s.level ≤ t.level)).head? s ::
           stack.dropWhile (fun t => s.level ≤ t.level),
         acc ++ [setParent (stack.dropWhile (fun t => s.level ≤ t.level)).head? s]) := by
      simp only [hierStep]
    rw [hstep, hierGo_strip rest _ _]
    simp [stripParents_setParent]

lemma establish_strip (l : List RawSection) :
    (establish_hierarchy l).map stripParents = l.map stripParents := by
  unfold establish_hierarchy
  rw [hierGo_strip l [] []]
  simp

lemma establish_length (l : List RawSection) :
    (establish_hierarchy l).length = l.length := by
  have h := congrArg List.length (establish_strip l)
  simpa using h

lemma establish_mem (l : List RawSection) (s : RawSection)
    (h : s ∈ establish_hierarchy l) :
    ∃ s0 ∈ l, stripParents s = stripParents s0 := by
  have hm : stripParents s ∈ (establish_hierarchy l).map stripParents :=
    List.mem_map_of_mem stripParents h
  rw [establish_strip] at hm
  obtain ⟨s0, hs0, heq⟩ := List.mem_map.mp hm
  exact ⟨s0, hs0, heq.symm⟩

lemma stripParents_level (s : RawSection) : (stripParents s).level = s.level := rfl

lemma stripParents_section_number (s : RawSection) :
    (stripParents s).section_number = s.section_number := rfl

lemma stripParents_content (s : RawSection) :
    (stripParents s).content = s.content := rfl

/-! ## The classifier produces only levels 0, 2 and 3 -/

def SecOK (s : RawSection) : Prop :=
  (s.level = 2 ∧ s.section_number = none) ∨ s.level = 3

def OpenOK (o : OpenSection) : Prop :=
  (o.level = 2 ∧ o.section_number = none) ∨ o.level = 3

lemma identify_cases (line : Str) :
    (identify_structure_level line).level = 0 ∨
    ((identify_structure_level line).level = 2 ∧
      (identify_structure_level line).section_number = none) ∨
    (identify_structure_level line).level = 3 := by
  unfold identify_structure_level
  by_cases h : pyStrip line = []
  · simp [h]
  · rcases hm : firstRule majorSectionRules (pyStrip line) with _ | g
    · rcases hp : firstRule pasalRules (pyStrip line) with _ | g
      · simp [h, hm, hp]
      · simp [h, hm, hp]
    · simp [h, hm]

lemma closeSection_ok (o : OpenSection) (content : List Str) (e : Nat)
    (h : OpenOK o) : SecOK (closeSection o content e) := h

lemma splitGo_ok : ∀ (lines : List Str) (total i : Nat)
    (curr : Option OpenSection) (content : List Str) (acc : List RawSection),
    (∀ s ∈ acc, SecOK s) → (∀ o, curr = some o → OpenOK o) →
    ∀ s ∈ splitGo total lines i curr content acc, SecOK s
  | [], total, i, curr, content, acc, hacc, hcurr => by
    intro s hs
    cases hc : curr with
    | none =>
      simp only [splitGo, hc] at hs
      exact hacc s hs
    | some o =>
      simp only [splitGo, hc] at hs
      rcases List.mem_append.mp hs with hs | hs
      · exact hacc s hs
      · rcases List.mem_singleton.mp hs with rfl
        exact closeSection_ok o content (total - 1) (hcurr o hc)
  | line :: rest, total, i, curr, content, acc, hacc, hcurr => by
    intro s hs
    simp only [splitGo] at hs
    by_cases h0 : 0 < (identify_structure_level line).level
    · rw [if_pos h0] at hs
      have hopen : OpenOK ⟨(identify_structure_level line).level,
          pyOrStr (identify_structure_level line).title (pyStrip line),
          (identify_structure_level line).section_number,
          (identify_structure_level line).chunk_type, i, line⟩ := by
        rcases identify_cases line with hz | h2 | h3
        · omega
        · exact Or.inl h2
        · exact Or.inr h3
      have hacc' : ∀ x ∈ (match curr with
          | some o => acc ++ [closeSection o content (i - 1)]
          | none => acc), SecOK x := by
        cases hc : curr with
        | none => simpa using hacc
        | some o =>
          intro x hx
          rcases List.mem_append.mp hx with hx | hx
          · exact hacc x hx
          · rcases List.mem_singleton.mp hx with rfl
            exact closeSection_ok o content (i - 1) (hcurr o hc)
      exact splitGo_ok rest total (i + 1) _ [] _ hacc'
        (fun o ho => by rw [← Option.some.inj ho]; exact hopen) s hs
    · rw [if_neg h0] at hs
      by_cases hb : pyStrip line ≠ []
      · rw [if_pos hb] at hs
        exact splitGo_ok rest total (i + 1) curr _ acc hacc hcurr s hs
      · rw [if_neg hb] at hs
        exact splitGo_ok rest total (i + 1) curr content acc hacc hcurr s hs

lemma split_sections_ok (text : Str) :
    ∀ s ∈ split_into_sections text, SecOK s := by
  intro s hs
  exact splitGo_ok _ _ 0 none [] [] (by simp) (by simp) s hs

lemma hs_sections_ok (text : Str) :
    ∀ s ∈ establish_hierarchy (split_into_sections text), SecOK s := by
  intro s hs
  obtain ⟨s0, hs0, hstrip⟩ := establish_mem _ s hs
  have h0 := split_sections_ok text s0 hs0
  have hl : s.level = s0.level := by
    have := congrArg RawSection.level hstrip
    simpa using this
  have hn : s.section_number = s0.section_number := by
    have := congrArg RawSection.section_number hstrip
    simpa using this
  rw [SecOK, hl, hn]
  exact h0

/-! ## The stack of the hierarchy builder -/

lemma lastLev2_concat2 (l : List RawSection) (a : RawSection)
    (h : a.level = 2) : lastLev2 (l ++ [a]) = some a := by
  unfold lastLev2
  rw [List.filter_append]
  simp [h]

lemma lastLev2_concat_not2 (l : List RawSection) (a : RawSection)
    (h : ¬ a.level = 2) : lastLev2 (l ++ [a]) = lastLev2 l := by
  unfold lastLev2
  rw [List.filter_append]
  simp [h]

lemma lastLev2_mem (l : List RawSection) (p : RawSection)
    (h : lastLev2 l = some p) : p ∈ l ∧ p.level = 2 := by
  have hm := mem_of_getLast?_eq h
  have := List.mem_filter.mp hm
  exact ⟨this.1, by simpa using this.2⟩

lemma stackInv_eq_nil (acc : List RawSection) (h : acc.getLast? = none) :
    stackInv acc = [] := by
  unfold stackInv
  rw [h]

lemma stackInv_eq_last (acc : List RawSection) (a : RawSection)
    (h : acc.getLast? = some a) :
    stackInv acc =
      if a.level = 2 then [a] else a :: (lastLev2 acc.dropLast).toList := by
  unfold stackInv
  rw [h]

lemma hierStep_stackInv (acc : List RawSection) (s : RawSection)
    (hacc : ∀ x ∈ acc, x.level = 2 ∨ x.level = 3)
    (hs : s.level = 2 ∨ s.level = 3) :
    hierStep (stackInv acc, acc) s =
      (stackInv (acc ++ [setParent (if s.level = 2 then none else lastLev2 acc) s]),
       acc ++ [setParent (if s.level = 2 then none else lastLev2 acc) s]) := by
  have hdrop : (stackInv acc).dropWhile (fun t => s.level ≤ t.level) =
      if s.level = 2 then [] else (lastLev2 acc).toList := by
    cases hlast : acc.getLast? with
    | none =>
      have hnil : acc = [] := List.getLast?_eq_none_iff.mp hlast
      subst hnil
      rw [stackInv_eq_nil [] rfl]
      rcases hs with h2 | h3
      · simp [h2, lastLev2]
      · have : ¬ s.level = 2 := by omega
        simp [this, lastLev2]
    | some a =>
      have ha : a ∈ acc := mem_of_getLast?_eq hlast
      have hcat : acc.dropLast ++ [a] = acc := List.dropLast_append_getLast? a hlast
      rw [stackInv_eq_last acc a hlast]
      rcases hacc a ha with ha2 | ha3
      · rw [if_pos ha2]
        rcases hs with h2 | h3
        · rw [if_pos h2]
          simp [List.dropWhile, h2, ha2]
        · have hne : ¬ s.level = 2 := by omega
          rw [if_neg hne]
          have hl2 : lastLev2 acc = some a := by
            rw [← hcat]
            exact lastLev2_concat2 acc.dropLast a ha2
          rw [hl2]
          simp [List.dropWhile, h3, ha2]
      · have hane : ¬ a.level = 2 := by omega
        rw [if_neg hane]
        have hl2eq : lastLev2 acc = lastLev2 acc.dropLast := by
          rw [← hcat, lastLev2_concat_not2 acc.dropLast a hane, hcat]
        rcases hs with h2 | h3
        · rw [if_pos h2]
          cases hl2 : lastLev2 acc.dropLast with
          | none => simp [List.dropWhile, h2, ha3]
          | some p =>
            have hp2 := (lastLev2_mem _ _ hl2).2
            simp [List.dropWhile, h2, ha3, hp2]
        · have hne : ¬ s.level = 2 := by omega
          rw [if_neg hne, hl2eq]
          cases hl2 : lastLev2 acc.dropLast with
          | none => simp [List.dropWhile, h3, ha3]
          | some p =>
            have hp2 := (lastLev2_mem _ _ hl2).2
            simp [List.dropWhile, h3, ha3, hp2]
  have hhead : (if s.level = 2 then ([] : List RawSection)
      else (lastLev2 acc).toList).head? =
      if s.level = 2 then none else lastLev2 acc := by
    by_cases h2 : s.level = 2
    · simp [h2]
    · cases hl : lastLev2 acc <;> simp [h2, hl]
  have hstack : (setParent (if s.level = 2 then none else lastLev2 acc) s ::
      ((stackInv acc).dropWhile (fun t => s.level ≤ t.level))) =
      stackInv (acc ++ [setParent (if s.level = 2 then none else lastLev2 acc) s]) := by
    have hlasteq := stackInv_eq_last
      (acc ++ [setParent (if s.level = 2 then none else lastLev2 acc) s])
      (setParent (if s.level = 2 then none else lastLev2 acc) s)
      (List.getLast?_concat acc)
    rw [List.dropLast_concat] at hlasteq
    rw [hdrop]
    by_cases h2 : s.level = 2
    · have hl : (setParent (if s.level = 2 then none else lastLev2 acc) s).level = 2 := by
        rw [setParent_level]; exact h2
      rw [hlasteq, if_pos hl]
      simp [h2]
    · have hl : ¬ (setParent (if s.level = 2 then none else lastLev2 acc) s).level = 2 := by
        rw [setParent_level]; exact h2
      rw [hlasteq, if_neg hl]
      simp [h2]
  simp only [hierStep]
  rw [hdrop, hhead, ← hdrop, hstack]

lemma hierGo_char : ∀ (l acc : List RawSection),
    (∀ x ∈ l, x.level = 2 ∨ x.level = 3) →
    (∀ x ∈ acc, x.level = 2 ∨ x.level = 3) →
    ∃ R, l.foldl hierStep (stackInv acc, acc) = (stackInv R, R) ∧
      (∃ t, R = acc ++ t) ∧ (∀ x ∈ R, x.level = 2 ∨ x.level = 3) ∧
      (∀ i, ∀ hi : i < R.length, acc.length ≤ i →
        (R.get ⟨i, hi⟩).parent_section =
          if (R.get ⟨i, hi⟩).level = 2 then none
          else (lastLev2 (R.take i)).map sKey)
  | [], acc, _, hacc =>
    ⟨acc, rfl, ⟨[], by simp⟩, hacc, fun i hi hle => absurd hi (by omega)⟩
  | s :: rest, acc, hl, hacc => by
    have hs23 : s.level = 2 ∨ s.level = 3 := hl s (List.mem_cons_self s rest)
    rw [List.foldl_cons, hierStep_stackInv acc s hacc hs23]
    have hs'23 : (setParent (if s.level = 2 then none else lastLev2 acc) s).level = 2 ∨
        (setParent (if s.level = 2 then none else lastLev2 acc) s).level = 3 := by
      rw [setParent_level]; exact hs23
    have hacc' : ∀ x ∈ acc ++ [setParent (if s.level = 2 then none else lastLev2 acc) s],
        x.level = 2 ∨ x.level = 3 := by
      intro x hx
      rcases List.mem_append.mp hx with hx | hx
      · exact hacc x hx
      · rcases List.mem_singleton.mp hx with rfl
        exact hs'23
    obtain ⟨R, hfold, ⟨t, hRt⟩, hR23, hform⟩ :=
      hierGo_char rest (acc ++ [setParent (if s.level = 2 then none else lastLev2 acc) s])
        (fun x hx => hl x (List.mem_cons_of_mem s hx)) hacc'
    refine ⟨R, hfold, ⟨setParent (if s.level = 2 then none else lastLev2 acc) s :: t,
      by rw [hRt, List.append_assoc]; rfl⟩, hR23, ?_⟩
    intro i hi hle
    rcases Nat.lt_or_ge i (acc.length + 1) with hlt | hge
    · have hieq : i = acc.length := by omega
      subst hieq
      have hgetq : R[acc.length]? =
          some (setParent (if s.level = 2 then none else lastLev2 acc) s) := by
        rw [hRt, List.append_assoc, List.getElem?_append_right (Nat.le_refl acc.length)]
        simp
      have hgetg : R[acc.length]? = some (R.get ⟨acc.length, hi⟩) := by
        simp [List.getElem?_eq_getElem hi]
      have hget : R.get ⟨acc.length, hi⟩ =
          setParent (if s.level = 2 then none else lastLev2 acc) s := by
        rw [hgetq] at hgetg
        exact (Option.some.inj hgetg).symm
      have htake : R.take acc.length = acc := by
        rw [hRt, List.append_assoc]
        exact List.take_left acc _
      rw [hget, htake, setParent_parent, setParent_level]
      rcases hs23 with h2 | h3
      · rw [if_pos h2, if_pos h2]
        rfl
      · have hne : ¬ s.level = 2 := by omega
        rw [if_neg hne, if_neg hne]
    · exact hform i hi (by simpa using hge)

lemma establish_char (l : List RawSection)
    (hl : ∀ x ∈ l, x.level = 2 ∨ x.level = 3) :
    ∀ i, ∀ hi : i < (establish_hierarchy l).length,
      ((establish_hierarchy l).get ⟨i, hi⟩).parent_section =
        if ((establish_hierarchy l).get ⟨i, hi⟩).level = 2 then none
        else (lastLev2 ((establish_hierarchy l).take i)).map sKey := by
  obtain ⟨R, hfold, ⟨t, hRt⟩, hR23, hform⟩ := hierGo_char l [] hl (by simp)
  have hinit : (stackInv [], ([] : List RawSection)) = ([], []) := by
    rw [stackInv_eq_nil [] rfl]
  have hR : establish_hierarchy l = R := by
    unfold establish_hierarchy
    rw [← hinit, hfold]
  intro i
  rw [hR]
  intro hi
  exact hform i hi (by simp)

lemma lastLev2_take_eq (l : List RawSection) (i j : Nat) (hj : j < l.length)
    (hji : j < i) (hil : i ≤ l.length) (h2 : (l.get ⟨j, hj⟩).level = 2)
    (hno : ∀ k, ∀ hk : k < l.length, j < k → k < i →
      (l.get ⟨k, hk⟩).level ≠ 2) :
    lastLev2 (l.take i) = some (l.get ⟨j, hj⟩) := by
  have hieq : i = (j + 1) + (i - (j + 1)) := by omega
  have hsplit : l.take i = l.take (j + 1) ++ (l.drop (j + 1)).take (i - (j + 1)) := by
    rw [← List.take_add, ← hieq]
  have htakej : l.take (j + 1) = l.take j ++ [l.get ⟨j, hj⟩] := by
    rw [List.take_succ, List.getElem?_eq_getElem hj]
    rfl
  have hmidnil : ((l.drop (j + 1)).take (i - (j + 1))).filter
      (fun s => s.level = 2) = [] := by
    rw [List.filter_eq_nil_iff]
    intro a ha
    obtain ⟨m, hm, hget⟩ := mem_iff_get.mp ha
    have hm1 : m < i - (j + 1) := by
      have := hm
      rw [List.length_take, List.length_drop] at this
      omega
    have hm2 : j + 1 + m < l.length := by
      have := hm
      rw [List.length_take, List.length_drop] at this
      omega
    have hm3 : m < (l.drop (j + 1)).length := by
      rw [List.length_drop]; omega
    have e1 : ((l.drop (j + 1)).take (i - (j + 1))).get ⟨m, hm⟩ =
        (l.drop (j + 1)).get ⟨m, hm3⟩ := by
      simp [List.getElem_take]
    have e2 : (l.drop (j + 1)).get ⟨m, hm3⟩ = l.get ⟨j + 1 + m, hm2⟩ := by
      simp [List.getElem_drop]
    have hlv := hno (j + 1 + m) hm2 (by omega) (by omega)
    rw [← hget, e1, e2]
    simpa using hlv
  have h2g := h2
  simp only [List.get_eq_getElem] at h2g
  unfold lastLev2
  rw [hsplit, List.filter_append, hmidnil, List.append_nil, htakej,
    List.filter_append]
  simp [h2g]

/-! ## Claim C4 -/

/-- C4 counterexample: a chapter heading with no body produces no chunk,
yet the article nested under it still names it as parent_section — the
emitted output holds a chunk whose parent matches no emitted chunk's
section number or title. -/
theorem c4_counterexample :
    (∃ c ∈ chunk_document 1500 100 emptyBabText,
      c.parent_section = some "BAB I".data) ∧
    ∀ c ∈ chunk_document 1500 100 emptyBabText,
      c.section_number ≠ some "BAB I".data ∧ c.title ≠ "BAB I".data := by
  decide

/-- C4 (amended): every hierarchy-annotated section's parent_section is
empty or equals the section-number-or-title key of a strictly earlier
section in document order (no forward reference), and every emitted
level-2 or level-3 chunk inherits parent_section from one of those
sections; the referenced section may itself have produced no chunk. -/
theorem c4_parent_references_earlier_section (text : Str) (maxS ov : Nat) :
    (∀ i, ∀ hi : i < (establish_hierarchy (split_into_sections text)).length,
      ((establish_hierarchy (split_into_sections text)).get ⟨i, hi⟩).parent_section
          = none ∨
        ∃ j, ∃ hj : j < (establish_hierarchy (split_into_sections text)).length,
          j < i ∧
          ((establish_hierarchy (split_into_sections text)).get ⟨i, hi⟩).parent_section
            = some (sKey ((establish_hierarchy (split_into_sections text)).get
                ⟨j, hj⟩))) ∧
    (∀ c ∈ chunk_document maxS ov text, 2 ≤ c.level →
      ∃ i, ∃ hi : i < (establish_hierarchy (split_into_sections text)).length,
        c.parent_section =
          ((establish_hierarchy (split_into_sections text)).get ⟨i, hi⟩).parent_section
        ∧ c.level =
          ((establish_hierarchy (split_into_sections text)).get ⟨i, hi⟩).level) := by
  have hl23 : ∀ x ∈ split_into_sections text, x.level = 2 ∨ x.level = 3 := by
    intro x hx
    rcases split_sections_ok text x hx with ⟨h2, _⟩ | h3
    · exact Or.inl h2
    · exact Or.inr h3
  constructor
  · intro i hi
    have hchar := establish_char (split_into_sections text) hl23 i hi
    by_cases h2 : ((establish_hierarchy (split_into_sections text)).get
        ⟨i, hi⟩).level = 2
    · left
      rw [hchar, if_pos h2]
    · rw [hchar, if_neg h2]
      cases hl : lastLev2 ((establish_hierarchy (split_into_sections text)).take i) with
      | none => left; rfl
      | some p =>
        right
        have hpm := (lastLev2_mem _ _ hl).1
        obtain ⟨m, hm, hget⟩ := mem_iff_get.mp hpm
        have hmlen := hm
        rw [List.length_take] at hmlen
        have hmi : m < i := by omega
        have hml : m < (establish_hierarchy (split_into_sections text)).length := by
          omega
        have hgelem : ((establish_hierarchy (split_into_sections text)).take i).get
            ⟨m, hm⟩ = (establish_hierarchy (split_into_sections text)).get ⟨m, hml⟩ := by
          simp [List.getElem_take]
        refine ⟨m, hml, hmi, ?_⟩
        rw [← hgelem, hget]
        rfl
  · intro c hc h2le
    rcases List.mem_cons.mp hc with rfl | hcf
    · simp [create_metadata_chunk] at h2le
    · obtain ⟨s, hsf, hcs⟩ := List.mem_flatMap.mp hcf
      have hsmem : s ∈ establish_hierarchy (split_into_sections text) :=
        List.mem_of_mem_filter hsf
      obtain ⟨i, hi, hgi⟩ := mem_iff_get.mp hsmem
      have hfield := chunk_long_fields maxS ov (extract_metadata text) s.content s c hcs
      exact ⟨i, hi, by rw [hgi]; exact hfield.2, by rw [hgi]; exact hfield.1⟩

/-- C4 witness: the amended statement applied to the concrete document
whose chapter produced no chunk. -/
theorem c4_witness :
    ((establish_hierarchy (split_into_sections emptyBabText)).get
        ⟨1, by decide⟩).parent_section = none ∨
    ∃ j, ∃ hj : j < (establish_hierarchy (split_into_sections emptyBabText)).length,
      j < 1 ∧
      ((establish_hierarchy (split_into_sections emptyBabText)).get
          ⟨1, by decide⟩).parent_section =
        some (sKey ((establish_hierarchy (split_into_sections emptyBabText)).get
            ⟨j, hj⟩)) :=
  (c4_parent_references_earlier_section emptyBabText 1500 100).1 1 (by decide)

/-! ## Claim C5 -/

/-- C5: a level-3 section below a level-2 section with no other level-2
section in between receives that section's heading text as parent_section
(major sections carry no section number, so the title is the key), and
every chunk emitted for it carries the same parent_section. -/
theorem c5_pasal_parent_is_chapter_title (text : Str) (maxS ov : Nat)
    (i j : Nat)
    (hi : i < (establish_hierarchy (split_into_sections text)).length)
    (hj : j < (establish_hierarchy (split_into_sections text)).length)
    (hji : j < i)
    (h3 : ((establish_hierarchy (split_into_sections text)).get ⟨i, hi⟩).level = 3)
    (h2 : ((establish_hierarchy (split_into_sections text)).get ⟨j, hj⟩).level = 2)
    (hno : ∀ k, ∀ hk : k < (establish_hierarchy (split_into_sections text)).length,
      j < k → k < i →
      ((establish_hierarchy (split_into_sections text)).get ⟨k, hk⟩).level ≠ 2) :
    ((establish_hierarchy (split_into_sections text)).get ⟨i, hi⟩).parent_section =
      some (((establish_hierarchy (split_into_sections text)).get ⟨j, hj⟩).title) ∧
    ∀ c ∈ chunk_long_content maxS ov (extract_metadata text)
        ((establish_hierarchy (split_into_sections text)).get ⟨i, hi⟩).content
        ((establish_hierarchy (split_into_sections text)).get ⟨i, hi⟩),
      c.parent_section =
        some (((establish_hierarchy (split_into_sections text)).get ⟨j, hj⟩).title) := by
  have hl23 : ∀ x ∈ split_into_sections text, x.level = 2 ∨ x.level = 3 := by
    intro x hx
    rcases split_sections_ok text x hx with ⟨ha, _⟩ | hb
    · exact Or.inl ha
    · exact Or.inr hb
  have hchar := establish_char (split_into_sections text) hl23 i hi
  have hne : ¬ ((establish_hierarchy (split_into_sections text)).get
      ⟨i, hi⟩).level = 2 := by
    rw [h3]; decide
  have hlast := lastLev2_take_eq (establish_hierarchy (split_into_sections text))
    i j hj hji (Nat.le_of_lt hi) h2 hno
  have hsok := hs_sections_ok text
    ((establish_hierarchy (split_into_sections text)).get ⟨j, hj⟩)
    (List.get_mem _ _ hj)
  have hsn : ((establish_hierarchy (split_into_sections text)).get
      ⟨j, hj⟩).section_number = none := by
    rcases hsok with ⟨_, hn⟩ | h3j
    · exact hn
    · rw [h3j] at h2
      exact absurd h2 (by decide)
  have hpar : ((establish_hierarchy (split_into_sections text)).get
      ⟨i, hi⟩).parent_section =
      some (((establish_hierarchy (split_into_sections text)).get ⟨j, hj⟩).title) := by
    have hkey : sKey ((establish_hierarchy (split_into_sections text)).get ⟨j, hj⟩)
        = ((establish_hierarchy (split_into_sections text)).get ⟨j, hj⟩).title := by
      unfold sKey pyOrStr
      rw [hsn]
    rw [hchar, if_neg hne, hlast]
    simp only [List.get_eq_getElem] at hkey
    simp [hkey]
  refine ⟨hpar, ?_⟩
  intro c hc
  rw [(chunk_long_fields maxS ov (extract_metadata text) _ _ c hc).2, hpar]

/-- C5 witness: in the concrete document the first article directly under
the chapter has the chapter title BAB I as its parent. -/
theorem c5_witness :
    ((establish_hierarchy (split_into_sections c1text)).get
        ⟨1, by decide⟩).level = 3 ∧
    ((establish_hierarchy (split_into_sections c1text)).get
        ⟨0, by decide⟩).level = 2 ∧
    ((establish_hierarchy (split_into_sections c1text)).get
        ⟨1, by decide⟩).parent_section =
      some (((establish_hierarchy (split_into_sections c1text)).get
          ⟨0, by decide⟩).title) :=
  ⟨by decide, by decide,
   (c5_pasal_parent_is_chapter_title c1text 1500 100 1 0 (by decide) (by decide)
     (by decide) (by decide) (by decide)
     (fun k hk hk1 hk2 => by omega)).1⟩

/-! ## Claim C2 -/

lemma splitGo_length : ∀ (lines : List Str) (total i : Nat)
    (curr : Option OpenSection) (content : List Str) (acc : List RawSection),
    (splitGo total lines i curr content acc).length =
      acc.length + (match curr with | some _ => 1 | none => 0) +
      (lines.filter (fun l => 0 < (identify_structure_level l).level)).length
  | [], total, i, curr, content, acc => by
    cases curr <;> simp [splitGo]
  | line :: rest, total, i, curr, content, acc => by
    by_cases h0 : 0 < (identify_structure_level line).level
    · simp only [splitGo, if_pos h0]
      rw [splitGo_length rest]
      cases curr <;> simp [List.filter_cons, h0] <;> omega
    · simp only [splitGo, if_neg h0]
      by_cases hb : pyStrip line ≠ []
      · rw [if_pos hb, splitGo_length rest]
        simp [List.filter_cons, h0]
      · rw [if_neg hb, splitGo_length rest]
        simp [List.filter_cons, h0]

lemma split_length_eq (text : Str) :
    (split_into_sections text).length = structLineCount text := by
  unfold split_into_sections structLineCount
  rw [splitGo_length]
  simp

/-- C2: the pipeline always emits the metadata chunk first and no other
level-1 chunk; when every section body is non-empty and at most the size
bound, the output has exactly one chunk per structural heading plus the
metadata chunk; a document with no structural heading yields exactly the
metadata chunk, whose content may be empty. -/
theorem c2_metadata_chunk_first_and_count (text : Str) (maxS ov : Nat) :
    ((chunk_document maxS ov text).head? =
        some (create_metadata_chunk (extract_metadata text)) ∧
      ∀ c ∈ (chunk_document maxS ov text).tail, c.level ≠ 1) ∧
    ((∀ s ∈ split_into_sections text,
        s.content ≠ [] ∧ s.content.length ≤ maxS) →
      (chunk_document maxS ov text).length = structLineCount text + 1) ∧
    (structLineCount text = 0 →
      chunk_document maxS ov text =
        [create_metadata_chunk (extract_metadata text)]) := by
  have hpipe : chunk_document maxS ov text =
      create_metadata_chunk (extract_metadata text) ::
        ((establish_hierarchy (split_into_sections text)).filter
          (fun s => s.content ≠ [])).flatMap
          (fun s => chunk_long_content maxS ov (extract_metadata text)
            s.content s) := rfl
  refine ⟨⟨by rw [hpipe]; rfl, ?_⟩, ?_, ?_⟩
  · rw [hpipe]
    intro c hc
    simp only [List.tail_cons] at hc
    obtain ⟨s, hsf, hcs⟩ := List.mem_flatMap.mp hc
    have hsmem := List.mem_of_mem_filter hsf
    have hlev := (chunk_long_fields maxS ov (extract_metadata text)
      s.content s c hcs).1
    rcases hs_sections_ok text s hsmem with ⟨h2, _⟩ | h3
    · rw [hlev, h2]; decide
    · rw [hlev, h3]; decide
  · intro hyp
    have htrans : ∀ s ∈ establish_hierarchy (split_into_sections text),
        s.content ≠ [] ∧ s.content.length ≤ maxS := by
      intro s hsm
      obtain ⟨s0, hs0, hstrip⟩ := establish_mem _ s hsm
      have hcnt : s.content = s0.content := by
        have := congrArg RawSection.content hstrip
        simpa using this
      rw [hcnt]
      exact hyp s0 hs0
    have hfilter : (establish_hierarchy (split_into_sections text)).filter
        (fun s => s.content ≠ []) =
        establish_hierarchy (split_into_sections text) := by
      rw [List.filter_eq_self]
      intro a ha
      simpa using (htrans a ha).1
    have hones : ∀ s ∈ establish_hierarchy (split_into_sections text),
        (chunk_long_content maxS ov (extract_metadata text) s.content s).length
          = 1 := by
      intro s hsm
      rw [chunk_long_single maxS ov (extract_metadata text) s.content s
        (htrans s hsm).2]
      rfl
    rw [hpipe, List.length_cons, hfilter, flatMap_length_ones _ _ hones,
      establish_length, split_length_eq]
  · intro h0
    have hsp : split_into_sections text = [] :=
      List.length_eq_zero.mp (by rw [split_length_eq]; exact h0)
    rw [hpipe, hsp]
    rfl

/-- C2 witness: the scenario document has 3 structural headings and 4
chunks; an unstructured document yields exactly the metadata chunk. -/
theorem c2_witness :
    ((chunk_document 1500 100 c1text).head? =
        some (create_metadata_chunk (extract_metadata c1text))) ∧
    ((∀ s ∈ split_into_sections c1text,
        s.content ≠ [] ∧ s.content.length ≤ 1500) ∧
      (chunk_document 1500 100 c1text).length = structLineCount c1text + 1) ∧
    (structLineCount "plain text".data = 0 ∧
      chunk_document 1500 100 "plain text".data =
        [create_metadata_chunk (extract_metadata "plain text".data)]) :=
  ⟨(c2_metadata_chunk_first_and_count c1text 1500 100).1.1,
   ⟨by decide,
    (c2_metadata_chunk_first_and_count c1text 1500 100).2.1 (by decide)⟩,
   ⟨by decide,
    (c2_metadata_chunk_first_and_count "plain text".data 1500 100).2.2
      (by decide)⟩⟩
